import Mathlib

/-!
# Verification of sqlfluff's runner and meta-segment subsystems

A shallow embedding of `src/sqlfluff/core/linter/runner.py`,
`src/sqlfluff/core/parser/segments/meta.py` and the tblib installation in
`src/sqlfluff/core/__init__.py`, together with proofs about the embedded
definitions.

Conventions of the embedding:
* Python exceptions become the inductive `PyExc`, tagged by the exception
  class and carrying the message string.
* A Python traceback object becomes `Traceback` (a list of formatted frame
  lines); `sys.exc_info()` inside an `except` block is modelled by passing
  the active exception's traceback explicitly.
* Generators (`run`) become functions from the list of per-file outcomes to
  a record of the values yielded, the warnings logged, the lines printed and
  the exception (if any) escaping the generator.
* Python's single-inheritance attribute lookup over the segment classes in
  `meta.py` is modelled by an explicit superclass chain and a fuelled
  resolution function.
-/

namespace Sqlfluff

/-- A Python exception value: the raising class together with its message.
Only the classes the embedded code distinguishes are represented.
`isinstance(e, IOError)` is true exactly for `ioError`. -/
inductive PyExc where
  | ioError (msg : String)
  | valueError (msg : String)
  | notImplementedError (msg : String)
  | runtimeError (msg : String)
  deriving DecidableEq, Repr

/-- Python's `isinstance(e, IOError)` test from `BaseRunner._handle_lint_path_exception`. -/
def PyExc.isIOError : PyExc → Bool
  | .ioError _ => true
  | _ => false

/-- The exception's class name, as Python would render it in a traceback. -/
def PyExc.typeName : PyExc → String
  | .ioError _ => "OSError"
  | .valueError _ => "ValueError"
  | .notImplementedError _ => "NotImplementedError"
  | .runtimeError _ => "RuntimeError"

/-- The exception's message (`str(e)`). -/
def PyExc.msg : PyExc → String
  | .ioError m => m
  | .valueError m => m
  | .notImplementedError m => m
  | .runtimeError m => m

/-- A Python traceback object: the stack of formatted frame lines that were
active at the point of failure. -/
structure Traceback where
  frames : List String
  deriving DecidableEq, Repr

/-- Model of `traceback.format_exc()` inside an `except` block handling exception `e`
whose traceback is `tb`: the standard header, the frames, then the final
`Type: message` line. -/
def formatExc (e : PyExc) (tb : Traceback) : String :=
  "Traceback (most recent call last):\n"
    ++ String.intercalate "\n" tb.frames
    ++ "\n" ++ e.typeName ++ ": " ++ e.msg ++ "\n"

/-! ## Segment classes (`meta.py`)

The class hierarchy of `meta.py` is
`RawSegment ← MetaSegment ← Indent ← Dedent` and
`MetaSegment ← TemplateSegment`.  `RawSegment` itself lives outside the
provided sources; it only appears as the top of the lookup chain. -/

/-- The segment classes declared in `meta.py`, plus their base `RawSegment`. -/
inductive SegClass where
  | rawSegment
  | metaSegment
  | indent
  | dedent
  | templateSegment
  deriving DecidableEq, Repr

/-- The direct superclass of each class, from the `class C(B):` headers of
`meta.py` (`MetaSegment(RawSegment)`, `Indent(MetaSegment)`,
`Dedent(Indent)`, `TemplateSegment(MetaSegment)`). -/
def superclass : SegClass → Option SegClass
  | .rawSegment => none
  | .metaSegment => some .rawSegment
  | .indent => some .metaSegment
  | .dedent => some .indent
  | .templateSegment => some .metaSegment

/-- Fuelled subclass test along the superclass chain (the chain has length
at most 5, so fuel 5 computes the true reflexive-transitive closure). -/
def isSubclassOfAux : Nat → SegClass → SegClass → Bool
  | 0, _, _ => false
  | n + 1, c, d =>
    c = d ||
      match superclass c with
      | some s => isSubclassOfAux n s d
      | none => false

/-- Python's `issubclass(c, d)` for the single-inheritance hierarchy of `meta.py`;
an instance of `c` is an instance of `d` exactly when this holds. -/
def isSubclassOf (c d : SegClass) : Bool := isSubclassOfAux 5 c d

/-- Fuelled Python attribute lookup: take the attribute where the class
itself defines it, else look in the superclass chain. -/
def resolveAttr {α : Type} (own : SegClass → Option α) : Nat → SegClass → Option α
  | 0, _ => none
  | n + 1, c =>
    match own c with
    | some v => some v
    | none =>
      match superclass c with
      | some s => resolveAttr own n s
      | none => none

/-- Attribute lookup with enough fuel for the whole hierarchy. -/
def classAttr {α : Type} (own : SegClass → Option α) (c : SegClass) : Option α :=
  resolveAttr own 5 c

/-- The `type` class attribute where a class declares it itself:
`MetaSegment.type = "meta"`, `Indent.type = "indent"`,
`Dedent.type = "dedent"`, `TemplateSegment.type = "placeholder"`;
`RawSegment.type` is declared outside the provided sources as `"raw"`. -/
def ownType : SegClass → Option String
  | .rawSegment => some "raw"
  | .metaSegment => some "meta"
  | .indent => some "indent"
  | .dedent => some "dedent"
  | .templateSegment => some "placeholder"

/-- The `indent_val` class attribute where declared: `MetaSegment` sets 0,
`Indent` sets +1, `Dedent` sets -1; the others inherit. -/
def ownIndentVal : SegClass → Option Int
  | .metaSegment => some 0
  | .indent => some 1
  | .dedent => some (-1)
  | _ => none

/-- The `is_meta` class attribute where declared: `MetaSegment` sets `True`;
`RawSegment`'s default (outside the provided sources, and per the spec's
data model) is `False`. -/
def ownIsMeta : SegClass → Option Bool
  | .rawSegment => some false
  | .metaSegment => some true
  | _ => none

/-- The `_is_code` class attribute where declared: only `MetaSegment`
declares it, as `False`. -/
def ownIsCode : SegClass → Option Bool
  | .metaSegment => some false
  | _ => none

/-- The `_template` class attribute where declared: only `MetaSegment`
declares it, as `"<unset>"`. -/
def ownTemplate : SegClass → Option String
  | .metaSegment => some "<unset>"
  | _ => none

/-- Resolved `type` tag of a class. -/
def segType (c : SegClass) : Option String := classAttr ownType c

/-- Resolved `indent_val` of a class. -/
def segIndentVal (c : SegClass) : Option Int := classAttr ownIndentVal c

/-- Resolved `is_meta` of a class. -/
def segIsMeta (c : SegClass) : Option Bool := classAttr ownIsMeta c

/-- Resolved `_is_code` of a class. -/
def segIsCode (c : SegClass) : Option Bool := classAttr ownIsCode c

/-- Resolved `_template` of a class. -/
def segTemplate (c : SegClass) : Option String := classAttr ownTemplate c

/-- Modelled from the spec: the literal (raw) text of an instantiated meta
segment.  The `RawSegment` constructor that stores the raw text is outside
the provided sources; `meta.py`'s docstrings state that a meta segment
"is always empty, i.e. its raw format is ''", which the spec repeats as
"meta segments always have empty literal text". -/
def metaInstanceRaw (_c : SegClass) : String := ""

/-- Embeds `MetaSegment._suffix`: it returns the empty string (`Indent` and `Dedent`
inherit it). -/
def metaSuffix : String := ""

/-! ## `MetaSegment.match` -/

/-- The outcome of invoking a `match` classmethod: an ordinary no-match
result, a successful match, or a raised exception. -/
inductive MatchOutcome where
  | unmatched
  | matched (segments : List String)
  | raised (e : PyExc)
  deriving DecidableEq, Repr

/-- The Python class name used by `"{}".format(cls.__name__)`. -/
def className : SegClass → String
  | .rawSegment => "RawSegment"
  | .metaSegment => "MetaSegment"
  | .indent => "Indent"
  | .dedent => "Dedent"
  | .templateSegment => "TemplateSegment"

/-- Body of `MetaSegment.match` (inherited unchanged by `Indent`, `Dedent`
and `TemplateSegment`): it unconditionally raises `NotImplementedError`
naming the invoking class.  The external `match_wrapper` decorator does not
intercept the exception. -/
def metaMatch (cls : SegClass) (_segments : List String) : MatchOutcome :=
  .raised (.notImplementedError
    (className cls ++ " has no match method, it should only be used in a Sequence!"))

/-! ## `TemplateSegment`

`TemplateSegment._suffix` interpolates `block_type` and `source_str` with
Python's `!r` conversion, so the embedding needs a model of CPython's
`repr` on strings (exact for ASCII, which covers every theorem below). -/

/-- Python `c in s` for a single character, used by `repr`'s quote choice. -/
def strContainsChar (s : String) (c : Char) : Bool := s.data.contains c

/-- CPython's quote choice for `repr` of a string: a single quote, unless
the string contains a single quote but no double quote. -/
def pyReprQuote (s : String) : Char :=
  if strContainsChar s '\'' && !strContainsChar s '"' then '"' else '\''

/-- Lowercase hexadecimal digit, for `\xNN` escapes. -/
def hexDigit (n : Nat) : Char :=
  if n < 10 then Char.ofNat (48 + n) else Char.ofNat (87 + (n - 10))

/-- CPython's rendering of one character inside a `repr`'d string delimited
by `quote`: escape the quote and the backslash, use mnemonic escapes for
tab/newline/carriage-return, `\xNN` for the other control characters, and
print everything else as itself. -/
def pyReprChar (quote c : Char) : List Char :=
  if c = quote || c = '\\' then ['\\', c]
  else if c = '\t' then ['\\', 't']
  else if c = '\n' then ['\\', 'n']
  else if c = '\r' then ['\\', 'r']
  else if c.toNat < 0x20 || c.toNat = 0x7f then
    ['\\', 'x', hexDigit (c.toNat / 16), hexDigit (c.toNat % 16)]
  else [c]

/-- The escaped body of a `repr`'d string. -/
def pyReprCore (quote : Char) : List Char → List Char
  | [] => []
  | c :: cs => pyReprChar quote c ++ pyReprCore quote cs

/-- CPython `repr` of a string (exact for ASCII contents). -/
def pyRepr (s : String) : String :=
  let q := pyReprQuote s
  ⟨q :: pyReprCore q s.data ++ [q]⟩

/-- Position markers are opaque to `meta.py`; the embedding keeps them as an
uninterpreted token. -/
structure PosMarker where
  id : Nat
  deriving DecidableEq, Repr

/-- The state a successfully constructed `TemplateSegment` holds. -/
structure TemplateSegment where
  pos_marker : Option PosMarker
  source_str : String
  block_type : String
  deriving DecidableEq, Repr

/-- Embeds `TemplateSegment.__init__`: `if not source_str: raise ValueError(...)`,
else store `source_str` and `block_type` and delegate the position marker to
the superclass.  Python's `not source_str` on a string is emptiness. -/
def TemplateSegment.init (pos_marker : Option PosMarker) (source_str : String)
    (block_type : String) : Except PyExc TemplateSegment :=
  if source_str = "" then
    .error (.valueError "Cannot instantiate TemplateSegment without a source_str.")
  else
    .ok ⟨pos_marker, source_str, block_type⟩

/-- Calling `TemplateSegment.__init__` with both keyword arguments left at their
declared defaults (`source_str=""`, `block_type=""`). -/
def TemplateSegment.initDefaults (pos_marker : Option PosMarker) :
    Except PyExc TemplateSegment :=
  TemplateSegment.init pos_marker "" ""

/-- Calling `TemplateSegment.__init__` with `block_type` left at its declared
default `""`. -/
def TemplateSegment.initDefaultBlockType (pos_marker : Option PosMarker)
    (source_str : String) : Except PyExc TemplateSegment :=
  TemplateSegment.init pos_marker source_str ""

/-- Embeds `TemplateSegment._suffix`:
`f"[Type: {self.block_type!r}, Raw: {self.source_str!r}]"`. -/
def TemplateSegment.suffix (t : TemplateSegment) : String :=
  "[Type: " ++ pyRepr t.block_type ++ ", Raw: " ++ pyRepr t.source_str ++ "]"

/-! ## Runner (`runner.py`)

`run` is a generator driven by `iter_partials`, which pairs each filename
with a deferred computation.  The embedding abstracts one deferred
computation's behaviour when invoked as a `LintOutcome`: either it returns
a `LintedFile`, or it raises an exception — in the latter case the
outcome carries the traceback that is active in the handler that catches
it (`sys.exc_info()` / `traceback.format_exc()`). -/

/-- The file-level result a deferred computation returns on success. -/
structure LintedFile where
  path : String
  deriving DecidableEq, Repr

/-- What invoking one file's deferred computation does. -/
inductive LintOutcome where
  | ok (lf : LintedFile)
  | raises (e : PyExc) (tb : Traceback)
  deriving DecidableEq, Repr

/-- The warning text of `BaseRunner._handle_lint_path_exception` for a
non-I/O exception: the f-string of `runner.py` lines 80-83 (the trailing
backslash of line 80 elides that newline). -/
def lintWarning (fname : String) (e : PyExc) (tb : Traceback) : String :=
  "Unable to lint " ++ fname
    ++ " due to an internal error. Please report this as an issue with your query's contents and stacktrace below!\nTo hide this warning, add the failing file to .sqlfluffignore\n"
    ++ formatExc e tb

/-- Embeds `BaseRunner._handle_lint_path_exception`: re-raise `IOError`s, log a
warning (with the formatted traceback) for everything else. -/
def handleLintPathException (fname : String) (e : PyExc) (tb : Traceback) :
    Except PyExc String :=
  if e.isIOError then .error e
  else .ok (lintWarning fname e tb)

/-- Everything observable about one `run` call: the results it yielded, the
warnings logged via `linter_logger.warning`, the lines printed, whether
`pool.terminate()` was called, and the exception (if any) that escaped. -/
structure RunResult where
  yielded : List LintedFile
  warnings : List String
  printed : List String
  terminated : Bool
  raised : Option PyExc
  deriving DecidableEq, Repr

/-- Embeds `SequentialRunner.run`: invoke each file's deferred computation in input
order; a raised exception goes to `_handle_lint_path_exception`, which
re-raises `IOError`s (ending the generator) and logs a warning otherwise. -/
def sequentialRun : List (String × LintOutcome) → RunResult
  | [] => ⟨[], [], [], false, none⟩
  | (fname, outcome) :: rest =>
    match outcome with
    | .ok lf =>
      let s := sequentialRun rest
      ⟨lf :: s.yielded, s.warnings, s.printed, s.terminated, s.raised⟩
    | .raises e tb =>
      match handleLintPathException fname e tb with
      | .error e => ⟨[], [], [], false, some e⟩
      | .ok w =>
        let s := sequentialRun rest
        ⟨s.yielded, w :: s.warnings, s.printed, s.terminated, s.raised⟩

/-! ### `DelayedException` and the process boundary -/

/-- Embeds `DelayedException`: the error envelope the pool transports.  Fields as
the class stores them: the wrapped exception `ee`, the traceback taken from
`sys.exc_info()` in `__init__`, and `fname`. -/
structure DelayedException where
  ee : PyExc
  tb : Option Traceback
  fname : Option String
  deriving DecidableEq, Repr

/-- Embeds `DelayedException.__init__(ee, fname=...)` as written: it stores `ee`,
stores the traceback of the exception currently being handled
(`sys.exc_info()`), and then executes `self.fname = None` — the `fname`
argument is accepted but never stored. -/
def DelayedException.ofWorker (ee : PyExc) (_fnameArg : Option String)
    (currentTb : Option Traceback) : DelayedException :=
  { ee := ee, tb := currentTb, fname := none }

/-- Embeds `DelayedException.reraise`: `raise self.ee.with_traceback(self.tb)` —
the raised exception is the stored object itself, with the stored traceback
attached. -/
def DelayedException.reraise (d : DelayedException) : PyExc × Option Traceback :=
  (d.ee, d.tb)

/-- Embeds `ParallelRunner._apply`, run inside a worker: invoke the deferred
computation; on success return the result, on any exception return a
`DelayedException` built in the `except` block (so `sys.exc_info()` there
yields the raised exception's traceback). -/
def parallelApply (fname : String) (outcome : LintOutcome) :
    Sum LintedFile DelayedException :=
  match outcome with
  | .ok lf => .inl lf
  | .raises e tb => .inr (DelayedException.ofWorker e (some fname) (some tb))

/-- Pickling a traceback for the trip back from a worker process: Python
traceback objects are not picklable by default; `tblib.pickling_support`
registers reducers that make them round-trip.  `none` means the pickle
fails. -/
def pickleTraceback (tblibInstalled : Bool) :
    Option Traceback → Option (Option Traceback)
  | none => some none
  | some tb => if tblibInstalled then some (some tb) else none

/-- Pickling a whole `DelayedException` field by field; the exception value
and the filename pickle natively, the traceback needs tblib. -/
def pickleDelayed (tblibInstalled : Bool) (d : DelayedException) :
    Option DelayedException :=
  (pickleTraceback tblibInstalled d.tb).map fun t => ⟨d.ee, t, d.fname⟩

/-- Module `sqlfluff/core/__init__.py` calls `tblib.pickling_support.install()`
at module load time, before any pool can exist. -/
def tblibInstalled : Bool := true

/-! ### `ParallelRunner.run` -/

/-- One event observed by the controller's collection loop: either the pool
hands back a worker's output, or a `KeyboardInterrupt` reaches the
controller at that point of the loop. -/
inductive PoolEvent where
  | out (r : Sum LintedFile DelayedException)
  | interrupt
  deriving DecidableEq, Repr

/-- The acknowledgement `ParallelRunner.run` prints on `KeyboardInterrupt`. -/
def interruptMsg : String :=
  "Received keyboard interrupt. Cleaning up and shutting down..."

/-- Python's `str(x)` for the optional filename interpolated into the warning
(`self.fname` is `None` in a `DelayedException`, and Python renders it as
`"None"`). -/
def optStr : Option String → String
  | none => "None"
  | some s => s

/-- Embeds the collection loop of `ParallelRunner.run`, parameterised by whether
`self.linter.formatter` is set.  A `LintedFile` is dispatched to the
controller's formatter (when present) and yielded; a `DelayedException` is
reraised and handled (warning, or escaping `IOError`); a
`KeyboardInterrupt` prints the acknowledgement, terminates the pool and
ends the generator without raising. -/
def parallelRun (hasFormatter : Bool) : List PoolEvent → RunResult
  | [] => ⟨[], [], [], false, none⟩
  | .interrupt :: _ => ⟨[], [], [interruptMsg], true, none⟩
  | .out (.inl lf) :: rest =>
    let s := parallelRun hasFormatter rest
    ⟨lf :: s.yielded, s.warnings, s.printed, s.terminated, s.raised⟩
  | .out (.inr d) :: rest =>
    match handleLintPathException (optStr d.fname) d.ee (d.tb.getD ⟨[]⟩) with
    | .error e => ⟨[], [], [], false, some e⟩
    | .ok w =>
      let s := parallelRun hasFormatter rest
      ⟨s.yielded, w :: s.warnings, s.printed, s.terminated, s.raised⟩

/-- The paths `ParallelRunner.run` dispatches to the controller-owned
formatter via `self.linter.formatter.dispatch_file_violations` (nothing is
dispatched when the linter has no formatter). -/
def parallelDispatched (hasFormatter : Bool) : List PoolEvent → List String
  | [] => []
  | .interrupt :: _ => []
  | .out (.inl lf) :: rest =>
    if hasFormatter then lf.path :: parallelDispatched hasFormatter rest
    else parallelDispatched hasFormatter rest
  | .out (.inr d) :: rest =>
    if d.ee.isIOError then [] else parallelDispatched hasFormatter rest

/-! ### Runner selection and the formatter policy -/

/-- The three concrete runner strategies. -/
inductive RunnerKind where
  | sequential
  | multiProcess
  | multiThread
  deriving DecidableEq, Repr

/-- The `pass_formatter` class attribute: `True` on `BaseRunner` (so on
`SequentialRunner`), overridden to `False` on `ParallelRunner` (so on both
`MultiProcessRunner` and `MultiThreadRunner`). -/
def passFormatter : RunnerKind → Bool
  | .sequential => true
  | .multiProcess => false
  | .multiThread => false

/-- Whether a runner's deferred computations execute inside the
controller's own process (threads share it, worker processes do not). -/
def executesInControllerProcess : RunnerKind → Bool
  | .sequential => true
  | .multiThread => true
  | .multiProcess => false

/-- Whether a runner's deferred computations execute on the controlling
thread itself. -/
def executesOnControllerThread : RunnerKind → Bool
  | .sequential => true
  | _ => false

/-- The formatter argument `iter_partials` closes each deferred computation
over: `self.linter.formatter if self.pass_formatter else None`. -/
def formatterArg (k : RunnerKind) (formatter : Option Nat) : Option Nat :=
  if passFormatter k then formatter else none

/-- What `get_runner` produces: the chosen runner and whether the
"parallel linting is not supported" warning was logged. -/
structure GetRunnerResult where
  runner : RunnerKind
  warned : Bool
  deriving DecidableEq, Repr

/-- Embeds `get_runner(linter, config, parallel, allow_process_parallelism)`:
process- or thread-parallel when `parallel > 1` on a supporting runtime
(Python >= 3.7), else sequential, warning when `parallel > 1` could not be
honoured.  It always returns a runner; no path raises. -/
def getRunner (parallel : Int) (allowProcessParallelism : Bool)
    (versionAtLeast37 : Bool) : GetRunnerResult :=
  if parallel > 1 && versionAtLeast37 then
    if allowProcessParallelism then ⟨.multiProcess, false⟩
    else ⟨.multiThread, false⟩
  else
    if parallel > 1 then ⟨.sequential, true⟩
    else ⟨.sequential, false⟩

/-! ## Helper lemmas -/

/-- The output of `traceback.format_exc()` is never the empty string: it always
starts with the `Traceback` header. -/
theorem formatExc_ne_empty (e : PyExc) (tb : Traceback) : formatExc e tb ≠ "" := by
  intro hc
  have hl := congrArg String.length hc
  simp only [formatExc, String.length_append] at hl
  have h35 : ("Traceback (most recent call last):\n" : String).length = 35 := rfl
  have h0 : ("" : String).length = 0 := rfl
  rw [h35, h0] at hl
  omega

/-- The filename appears verbatim inside the warning text of
`_handle_lint_path_exception`. -/
theorem fname_infix_lintWarning (fname : String) (e : PyExc) (tb : Traceback) :
    fname.data <:+: (lintWarning fname e tb).data :=
  ⟨"Unable to lint ".data,
   (" due to an internal error. Please report this as an issue with your query's contents and stacktrace below!\nTo hide this warning, add the failing file to .sqlfluffignore\n").data
     ++ (formatExc e tb).data,
   by simp only [lintWarning, String.data_append, List.append_assoc]⟩

end Sqlfluff

namespace Sqlfluff

/-! ## Claim theorems (part 1) -/

/-- C10: `Dedent` is a subclass of `Indent` (itself a subclass of the meta
base), so selecting by the `Indent` type also selects every `Dedent`; the
two resolve `is_meta = True`, type tags `"indent"` / `"dedent"`,
`indent_val` `+1` / `-1`, instances with empty literal text, and agree on
the remaining class attributes (`_is_code`, `_template`, suffix). -/
theorem dedent_is_indent :
    isSubclassOf .dedent .indent = true ∧
    isSubclassOf .indent .metaSegment = true ∧
    isSubclassOf .dedent .metaSegment = true ∧
    segIsMeta .indent = some true ∧
    segIsMeta .dedent = some true ∧
    segType .indent = some "indent" ∧
    segType .dedent = some "dedent" ∧
    segIndentVal .indent = some 1 ∧
    segIndentVal .dedent = some (-1) ∧
    metaInstanceRaw .indent = "" ∧
    metaInstanceRaw .dedent = "" ∧
    segIsCode .indent = segIsCode .dedent ∧
    segTemplate .indent = segTemplate .dedent ∧
    metaSuffix = "" := by
  decide

/-- C8: invoking `match` on any meta segment class (`MetaSegment`,
`Indent`, `Dedent`, `TemplateSegment`) raises `NotImplementedError` naming
that class, an outcome distinct from both an ordinary no-match result and a
successful match. -/
theorem meta_match_always_raises (cls : SegClass) (segments : List String)
    (_h : isSubclassOf cls .metaSegment = true) :
    metaMatch cls segments
      = .raised (.notImplementedError
          (className cls ++ " has no match method, it should only be used in a Sequence!")) ∧
    metaMatch cls segments ≠ .unmatched ∧
    ∀ ms, metaMatch cls segments ≠ .matched ms := by
  refine ⟨rfl, by simp [metaMatch], fun ms => by simp [metaMatch]⟩

/-- Witness for C8 at `Indent` on a concrete segment list. -/
theorem meta_match_always_raises_witness :
    isSubclassOf .indent .metaSegment = true ∧
    metaMatch .indent ["SELECT"]
      = .raised (.notImplementedError
          (className .indent ++ " has no match method, it should only be used in a Sequence!")) ∧
    metaMatch .indent ["SELECT"] ≠ .unmatched := by
  have h := meta_match_always_raises .indent ["SELECT"] (by decide)
  exact ⟨by decide, h.1, h.2.1⟩

/-- C1 (code bug): `DelayedException.__init__` executes `self.fname = None`
instead of storing its `fname` argument, so the envelope built by `_apply`
for file `"test.sql"` does not carry that filename. -/
theorem delayed_envelope_drops_filename :
    parallelApply "test.sql" (.raises (.valueError "boom") ⟨["frame"]⟩)
      = .inr ⟨.valueError "boom", some ⟨["frame"]⟩, none⟩ ∧
    (DelayedException.ofWorker (.valueError "boom") (some "test.sql")
        (some ⟨["frame"]⟩)).fname ≠ some "test.sql" := by
  exact ⟨rfl, by simp [DelayedException.ofWorker]⟩

/-- C3: an envelope built in a worker's `except` block pickles to itself
once tblib's pickling support is installed (as `core/__init__.py` does when
loaded), and `reraise` raises the stored exception object itself —
same type and message as the original — with exactly the traceback captured
at the point of failure attached; its formatted text is non-empty. -/
theorem delayed_envelope_reraise (e : PyExc) (fname : String) (tb : Traceback) :
    pickleDelayed tblibInstalled (DelayedException.ofWorker e (some fname) (some tb))
      = some (DelayedException.ofWorker e (some fname) (some tb)) ∧
    (DelayedException.ofWorker e (some fname) (some tb)).reraise = (e, some tb) ∧
    (DelayedException.ofWorker e (some fname) (some tb)).reraise.1.typeName = e.typeName ∧
    (DelayedException.ofWorker e (some fname) (some tb)).reraise.1.msg = e.msg ∧
    (DelayedException.ofWorker e (some fname) (some tb)).reraise.2.isSome = true ∧
    formatExc e tb ≠ "" := by
  exact ⟨rfl, rfl, rfl, rfl, rfl, formatExc_ne_empty e tb⟩

/-- C4: the runner factory chooses `SequentialRunner` for `parallel <= 1`;
for `parallel > 1` it chooses `MultiProcessRunner` when process parallelism
is allowed and the runtime supports it, `MultiThreadRunner` when the
runtime supports it but process parallelism is disallowed, and otherwise
falls back to `SequentialRunner` with a warning — always returning a
runner, never raising. -/
theorem get_runner_selection (p : Int) (a v : Bool) :
    (p ≤ 1 → getRunner p a v = ⟨.sequential, false⟩) ∧
    (p > 1 → v = true → a = true → getRunner p a v = ⟨.multiProcess, false⟩) ∧
    (p > 1 → v = true → a = false → getRunner p a v = ⟨.multiThread, false⟩) ∧
    (p > 1 → v = false → getRunner p a v = ⟨.sequential, true⟩) := by
  refine ⟨fun h1 => ?_, fun h1 h2 h3 => ?_, fun h1 h2 h3 => ?_, fun h1 h2 => ?_⟩
  · have hnp : ¬ p > 1 := by omega
    simp [getRunner, hnp]
  · subst h2; subst h3
    simp [getRunner, h1]
  · subst h2; subst h3
    simp [getRunner, h1]
  · subst h2
    simp [getRunner, h1]

/-- Whether invoking a file's deferred computation returns normally. -/
def isOkOutcome : LintOutcome → Bool
  | .ok _ => true
  | .raises _ _ => false

/-- The results of the files whose deferred computations return normally,
in input order. -/
def okFiles : List (String × LintOutcome) → List LintedFile
  | [] => []
  | (_, .ok lf) :: rest => lf :: okFiles rest
  | (_, .raises _ _) :: rest => okFiles rest

/-- A file entry that does not abort a sequential run: it either returns or
raises a non-I/O exception. -/
def softOutcome (x : String × LintOutcome) : Bool :=
  match x.2 with
  | .ok _ => true
  | .raises e _ => !e.isIOError

/-- A sequential run over files that all lint cleanly yields every result,
in order, with no warnings and no escaping exception. -/
theorem sequentialRun_all_ok :
    ∀ l : List (String × LintOutcome), l.all (fun x => isOkOutcome x.2) = true →
      sequentialRun l = ⟨okFiles l, [], [], false, none⟩
  | [], _ => rfl
  | (fname, .ok lf) :: rest, h => by
    rw [List.all_cons, Bool.and_eq_true] at h
    simp [sequentialRun, okFiles, sequentialRun_all_ok rest h.2]
  | (fname, .raises e tb) :: rest, h => by
    rw [List.all_cons, Bool.and_eq_true] at h
    exact absurd h.1 (by simp [isOkOutcome])

/-- Splitting a sequential run after a clean prefix. -/
theorem sequentialRun_append_ok :
    ∀ l rest : List (String × LintOutcome), l.all (fun x => isOkOutcome x.2) = true →
      sequentialRun (l ++ rest) =
        ⟨okFiles l ++ (sequentialRun rest).yielded, (sequentialRun rest).warnings,
         (sequentialRun rest).printed, (sequentialRun rest).terminated,
         (sequentialRun rest).raised⟩
  | [], rest, _ => by simp [okFiles]
  | (fname, .ok lf) :: l, rest, h => by
    rw [List.all_cons, Bool.and_eq_true] at h
    simp [sequentialRun, okFiles, sequentialRun_append_ok l rest h.2]
  | (fname, .raises e tb) :: l, rest, h => by
    rw [List.all_cons, Bool.and_eq_true] at h
    exact absurd h.1 (by simp [isOkOutcome])

/-- Over a clean list, every file contributes a result. -/
theorem okFiles_length :
    ∀ l : List (String × LintOutcome), l.all (fun x => isOkOutcome x.2) = true →
      (okFiles l).length = l.length
  | [], _ => rfl
  | (fname, .ok lf) :: rest, h => by
    rw [List.all_cons, Bool.and_eq_true] at h
    simp [okFiles, okFiles_length rest h.2]
  | (fname, .raises e tb) :: rest, h => by
    rw [List.all_cons, Bool.and_eq_true] at h
    exact absurd h.1 (by simp [isOkOutcome])

/-- C2: when exactly one file `F` raises a non-I/O exception and every
other file lints cleanly, the sequential run yields the other files'
results (one fewer than the number of files), logs exactly one warning —
whose text contains `F` verbatim and the non-empty formatted traceback —
and lets no exception escape. -/
theorem sequential_soft_failure_isolated
    (pre post : List (String × LintOutcome)) (F : String) (e : PyExc) (tb : Traceback)
    (hpre : pre.all (fun x => isOkOutcome x.2) = true)
    (hpost : post.all (fun x => isOkOutcome x.2) = true)
    (he : e.isIOError = false) :
    sequentialRun (pre ++ (F, .raises e tb) :: post)
      = ⟨okFiles pre ++ okFiles post, [lintWarning F e tb], [], false, none⟩ ∧
    (okFiles pre ++ okFiles post).length + 1
      = (pre ++ (F, .raises e tb) :: post).length ∧
    F.data <:+: (lintWarning F e tb).data ∧
    formatExc e tb ≠ "" := by
  refine ⟨?_, ?_, fname_infix_lintWarning F e tb, formatExc_ne_empty e tb⟩
  · rw [sequentialRun_append_ok pre _ hpre]
    simp [sequentialRun, handleLintPathException, he, sequentialRun_all_ok post hpost]
  · simp [List.length_append, okFiles_length pre hpre, okFiles_length post hpost]
    omega

/-- Witness for C2: three files where only the middle one fails, with a
`ValueError`. -/
theorem sequential_soft_failure_isolated_witness :
    sequentialRun
        [("a.sql", .ok ⟨"a.sql"⟩), ("b.sql", .raises (.valueError "boom") ⟨["frame"]⟩),
         ("c.sql", .ok ⟨"c.sql"⟩)]
      = ⟨[⟨"a.sql"⟩, ⟨"c.sql"⟩], [lintWarning "b.sql" (.valueError "boom") ⟨["frame"]⟩],
         [], false, none⟩ ∧
    ("b.sql" : String).data
      <:+: (lintWarning "b.sql" (.valueError "boom") ⟨["frame"]⟩).data := by
  have h := sequential_soft_failure_isolated
    [("a.sql", .ok ⟨"a.sql"⟩)] [("c.sql", .ok ⟨"c.sql"⟩)]
    "b.sql" (.valueError "boom") ⟨["frame"]⟩ (by decide) (by decide) (by decide)
  exact ⟨h.1, h.2.2.1⟩

/-- Splitting a sequential run at the first I/O failure, by induction over
the soft prefix. -/
theorem sequentialRun_io_abort :
    ∀ pre : List (String × LintOutcome), ∀ post : List (String × LintOutcome),
    ∀ F : String, ∀ e : PyExc, ∀ tb : Traceback,
      pre.all softOutcome = true → e.isIOError = true →
      sequentialRun (pre ++ (F, .raises e tb) :: post)
        = ⟨(sequentialRun pre).yielded, (sequentialRun pre).warnings, [], false, some e⟩
  | [], post, F, e, tb, _, he => by
    simp [sequentialRun, handleLintPathException, he]
  | (fname, .ok lf) :: pre, post, F, e, tb, h, he => by
    rw [List.all_cons, Bool.and_eq_true] at h
    simp [sequentialRun, sequentialRun_io_abort pre post F e tb h.2 he]
  | (fname, .raises e' tb') :: pre, post, F, e, tb, h, he => by
    rw [List.all_cons, Bool.and_eq_true] at h
    have hsoft : e'.isIOError = false := by
      have := h.1
      simp [softOutcome] at this
      exact this
    simp [sequentialRun, handleLintPathException, hsoft,
      sequentialRun_io_abort pre post F e tb h.2 he]

/-- C5: the first I/O failure aborts the sequential run: the `IOError`
escapes unchanged, the results and warnings are exactly those of the files
before `F`, and nothing after `F` contributes — in particular the failure
is never turned into a per-file warning. -/
theorem sequential_io_failure_fatal
    (pre post : List (String × LintOutcome)) (F : String) (e : PyExc) (tb : Traceback)
    (hpre : pre.all softOutcome = true) (he : e.isIOError = true) :
    sequentialRun (pre ++ (F, .raises e tb) :: post)
      = ⟨(sequentialRun pre).yielded, (sequentialRun pre).warnings, [], false, some e⟩ :=
  sequentialRun_io_abort pre post F e tb hpre he

/-- Witness for C5: the second file is unreadable; the first file's result
is yielded and the `IOError` escapes, while the third file never runs. -/
theorem sequential_io_failure_fatal_witness :
    sequentialRun
        [("a.sql", .ok ⟨"a.sql"⟩), ("b.sql", .raises (.ioError "unreadable") ⟨["frame"]⟩),
         ("c.sql", .ok ⟨"c.sql"⟩)]
      = ⟨[⟨"a.sql"⟩], [], [], false, some (.ioError "unreadable")⟩ := by
  have h := sequential_io_failure_fatal
    [("a.sql", .ok ⟨"a.sql"⟩)] [("c.sql", .ok ⟨"c.sql"⟩)]
    "b.sql" (.ioError "unreadable") ⟨["frame"]⟩ (by decide) (by decide)
  simpa using h

/-- A pool event the collection loop survives: a worker output that is
either a result or an envelope around a non-I/O exception. -/
def softEvent : PoolEvent → Bool
  | .out (.inl _) => true
  | .out (.inr d) => !d.ee.isIOError
  | .interrupt => false

/-- Splitting the parallel collection loop at an interrupt, by induction
over the soft prefix. -/
theorem parallelRun_interrupt_split (hf : Bool) :
    ∀ pre post : List PoolEvent, pre.all softEvent = true →
      parallelRun hf (pre ++ .interrupt :: post)
        = ⟨(parallelRun hf pre).yielded, (parallelRun hf pre).warnings,
           [interruptMsg], true, none⟩
  | [], post, _ => by
    simp [parallelRun]
  | .out (.inl lf) :: pre, post, h => by
    rw [List.all_cons, Bool.and_eq_true] at h
    simp [parallelRun, parallelRun_interrupt_split hf pre post h.2]
  | .out (.inr d) :: pre, post, h => by
    rw [List.all_cons, Bool.and_eq_true] at h
    have hsoft : d.ee.isIOError = false := by
      have := h.1
      simp [softEvent] at this
      exact this
    simp [parallelRun, handleLintPathException, hsoft,
      parallelRun_interrupt_split hf pre post h.2]
  | .interrupt :: pre, post, h => by
    rw [List.all_cons, Bool.and_eq_true] at h
    exact absurd h.1 (by simp [softEvent])

/-- C6: a `KeyboardInterrupt` arriving while the controller collects
results makes the parallel run keep only the results collected so far,
print the shutdown acknowledgement, call `pool.terminate()`, and end with
no exception escaping — later pool outputs are never collected. -/
theorem parallel_interrupt_clean_shutdown (hf : Bool) (pre post : List PoolEvent)
    (hpre : pre.all softEvent = true) :
    parallelRun hf (pre ++ .interrupt :: post)
      = ⟨(parallelRun hf pre).yielded, (parallelRun hf pre).warnings,
         [interruptMsg], true, none⟩ :=
  parallelRun_interrupt_split hf pre post hpre

/-- Witness for C6: one result is collected, then the interrupt arrives;
the result after it is abandoned. -/
theorem parallel_interrupt_clean_shutdown_witness :
    parallelRun true
        [.out (.inl ⟨"a.sql"⟩), .interrupt, .out (.inl ⟨"c.sql"⟩)]
      = ⟨[⟨"a.sql"⟩], [], [interruptMsg], true, none⟩ := by
  have h := parallel_interrupt_clean_shutdown true
    [.out (.inl ⟨"a.sql"⟩)] [.out (.inl ⟨"c.sql"⟩)] (by decide)
  simpa using h

/-- With no formatter on the linter, the parallel collection loop
dispatches nothing. -/
theorem parallelDispatched_none :
    ∀ events : List PoolEvent, parallelDispatched false events = []
  | [] => rfl
  | .interrupt :: _ => rfl
  | .out (.inl lf) :: rest => by
    simp [parallelDispatched, parallelDispatched_none rest]
  | .out (.inr d) :: rest => by
    by_cases hd : d.ee.isIOError = true <;>
      simp [parallelDispatched, hd, parallelDispatched_none rest]

/-- With a formatter on the linter, the controller dispatches exactly the
results it yields, through its own formatter handle. -/
theorem parallelDispatched_yielded :
    ∀ events : List PoolEvent,
      parallelDispatched true events = (parallelRun true events).yielded.map LintedFile.path
  | [] => rfl
  | .interrupt :: _ => rfl
  | .out (.inl lf) :: rest => by
    simp [parallelDispatched, parallelRun, parallelDispatched_yielded rest]
  | .out (.inr d) :: rest => by
    by_cases hd : d.ee.isIOError = true <;>
      simp [parallelDispatched, parallelRun, handleLintPathException, hd,
        parallelDispatched_yielded rest]

/-- C9: only the sequential runner's work units close over the controller's
formatter (`pass_formatter` is overridden to `False` for both parallel
runners, so their units get `None` — in particular the process-parallel
ones); the sequential runner is exactly the one executing on the
controlling thread, and for the thread runner — which still executes
inside the controller's process — results are reported through the
controller's own formatter handle in the collection loop. -/
theorem formatter_only_in_controller (f : Option Nat) (events : List PoolEvent) :
    formatterArg .sequential f = f ∧
    formatterArg .multiProcess f = none ∧
    formatterArg .multiThread f = none ∧
    passFormatter .sequential = true ∧
    executesOnControllerThread .sequential = true ∧
    executesOnControllerThread .multiProcess = false ∧
    executesOnControllerThread .multiThread = false ∧
    executesInControllerProcess .multiThread = true ∧
    executesInControllerProcess .multiProcess = false ∧
    parallelDispatched false events = [] ∧
    parallelDispatched true events = (parallelRun true events).yielded.map LintedFile.path := by
  exact ⟨rfl, rfl, rfl, rfl, rfl, rfl, rfl, rfl, rfl,
    parallelDispatched_none events, parallelDispatched_yielded events⟩

/-- A character that CPython's `repr` prints as itself inside a
single-quoted string: printable, not a quote and not a backslash. -/
def plainChar (c : Char) : Bool :=
  decide (32 ≤ c.toNat ∧ c.toNat ≠ 127 ∧ c ≠ '\'' ∧ c ≠ '"' ∧ c ≠ '\\')

/-- Plain characters are rendered verbatim by `repr`. -/
theorem pyReprChar_plain (c : Char) (h : plainChar c = true) : pyReprChar '\'' c = [c] := by
  simp only [plainChar, decide_eq_true_eq] at h
  obtain ⟨h32, h127, hq, hdq, hbs⟩ := h
  have ht : c ≠ '\t' := by rintro rfl; exact absurd h32 (by decide)
  have hn : c ≠ '\n' := by rintro rfl; exact absurd h32 (by decide)
  have hr : c ≠ '\r' := by rintro rfl; exact absurd h32 (by decide)
  have hlt : ¬ c.toNat < 32 := by omega
  simp [pyReprChar, hq, hbs, ht, hn, hr, hlt, h127]

/-- A string of plain characters keeps its body unchanged under `repr`. -/
theorem pyReprCore_plain : ∀ l : List Char, l.all plainChar = true →
    pyReprCore '\'' l = l
  | [], _ => rfl
  | c :: cs, h => by
    rw [List.all_cons, Bool.and_eq_true] at h
    simp [pyReprCore, pyReprChar_plain c h.1, pyReprCore_plain cs h.2]

/-- A list of plain characters contains no single quote. -/
theorem contains_quote_false (l : List Char) (h : l.all plainChar = true) :
    l.contains '\'' = false := by
  rw [List.all_eq_true] at h
  by_contra hc
  rw [Bool.not_eq_false] at hc
  have hm : '\'' ∈ l := by simpa using hc
  have hp := h _ hm
  simp [plainChar] at hp

/-- On plain strings `repr` picks the single quote. -/
theorem pyReprQuote_plain (s : String) (h : s.data.all plainChar = true) :
    pyReprQuote s = '\'' := by
  unfold pyReprQuote strContainsChar
  rw [contains_quote_false s.data h]
  rfl

/-- On plain strings `repr` just wraps the string in single quotes. -/
theorem pyRepr_plain (s : String) (h : s.data.all plainChar = true) :
    (pyRepr s).data = '\'' :: s.data ++ ['\''] := by
  simp [pyRepr, pyReprQuote_plain s h, pyReprCore_plain s.data h]

/-- The rendered source string appears inside the placeholder suffix. -/
theorem pyReprSrc_infix_suffix (t : TemplateSegment) :
    (pyRepr t.source_str).data <:+: (TemplateSegment.suffix t).data :=
  ⟨"[Type: ".data ++ (pyRepr t.block_type).data ++ ", Raw: ".data, "]".data,
   by simp only [TemplateSegment.suffix, String.data_append, List.append_assoc]⟩

/-- The rendered block type appears inside the placeholder suffix. -/
theorem pyReprBlock_infix_suffix (t : TemplateSegment) :
    (pyRepr t.block_type).data <:+: (TemplateSegment.suffix t).data :=
  ⟨"[Type: ".data,
   ", Raw: ".data ++ (pyRepr t.source_str).data ++ "]".data,
   by simp only [TemplateSegment.suffix, String.data_append, List.append_assoc]⟩

/-- C7 counterexample: with source string `"\n"` construction succeeds and
stores it verbatim, but the diagnostic suffix renders it with `!r` as the
two characters `\n`, so the suffix does not contain the exact stored
string. -/
theorem template_suffix_not_verbatim :
    TemplateSegment.init none "\n" "block" = .ok ⟨none, "\n", "block"⟩ ∧
    ¬ (("\n" : String).data <:+: (TemplateSegment.suffix ⟨none, "\n", "block"⟩).data) := by
  constructor
  · unfold TemplateSegment.init
    rw [if_neg (by decide)]
  · decide

/-- C7 (amended): constructing a placeholder with an empty source string
raises `ValueError`; with a non-empty one it stores the string verbatim
(block type defaulting to the empty tag), and the diagnostic suffix
contains the `repr`-rendered source string and block-type tag — containing
the exact source string itself whenever it needs no escaping. -/
theorem template_init_stores_and_suffix (pm : Option PosMarker) (src block : String)
    (h : src ≠ "") :
    TemplateSegment.init pm src block = .ok ⟨pm, src, block⟩ ∧
    TemplateSegment.init pm "" block
      = .error (.valueError "Cannot instantiate TemplateSegment without a source_str.") ∧
    TemplateSegment.initDefaultBlockType pm src = TemplateSegment.init pm src "" ∧
    (pyRepr src).data <:+: (TemplateSegment.suffix ⟨pm, src, block⟩).data ∧
    (pyRepr block).data <:+: (TemplateSegment.suffix ⟨pm, src, block⟩).data ∧
    (src.data.all plainChar = true →
      src.data <:+: (TemplateSegment.suffix ⟨pm, src, block⟩).data) := by
  refine ⟨?_, rfl, rfl, pyReprSrc_infix_suffix ⟨pm, src, block⟩,
    pyReprBlock_infix_suffix ⟨pm, src, block⟩, fun hp => ?_⟩
  · simp [TemplateSegment.init, h]
  · have h1 : src.data <:+: (pyRepr src).data := by
      rw [pyRepr_plain src hp]
      exact ⟨['\''], ['\''], by simp⟩
    exact h1.trans (pyReprSrc_infix_suffix ⟨pm, src, block⟩)

/-- Witness for C7 (amended) on a plain source string and block type. -/
theorem template_init_stores_and_suffix_witness :
    TemplateSegment.init none "elided" "templated" = .ok ⟨none, "elided", "templated"⟩ ∧
    ("elided" : String).data
      <:+: (TemplateSegment.suffix ⟨none, "elided", "templated"⟩).data := by
  have h := template_init_stores_and_suffix none "elided" "templated" (by decide)
  exact ⟨h.1, h.2.2.2.2.2 (by decide)⟩

/-- Witness for C4 at the concrete requests of the spec's testable
property: `parallel=1`, and `parallel=4` under each runtime condition. -/
theorem get_runner_selection_witness :
    getRunner 1 true true = ⟨.sequential, false⟩ ∧
    getRunner 4 true true = ⟨.multiProcess, false⟩ ∧
    getRunner 4 false true = ⟨.multiThread, false⟩ ∧
    getRunner 4 true false = ⟨.sequential, true⟩ :=
  ⟨(get_runner_selection 1 true true).1 (by omega),
   (get_runner_selection 4 true true).2.1 (by omega) rfl rfl,
   (get_runner_selection 4 false true).2.2.1 (by omega) rfl rfl,
   (get_runner_selection 4 true false).2.2.2 (by omega) rfl⟩

end Sqlfluff
